import Mathlib

/-!
# Verification of the nlm NotebookLM API client (package `api`)

Shallow embedding of the response-decoding and argument-construction logic
of `internal/api/client.go`, together with theorems checking the
natural-language specification against it.

Go values of dynamic type `interface{}` produced by `json.Unmarshal` are
modelled by `JSONValue` (Go yields `nil`, `bool`, `float64`, `string`,
`[]interface{}` or `map[string]interface{}`; numbers are modelled as exact
rationals).  Go `error` results are modelled by `GoError`; a function
returning `(T, error)` becomes either `Except GoError T` (when exactly one
of the pair is meaningful) or an explicit product when the Go code can
return a non-zero value together with `nil` error.  Network calls are
modelled by oracle parameters carrying the outcome the RPC layer would
have produced.
-/

/-- A parsed JSON value, as produced by Go's `json.Unmarshal` into
`interface{}`: `nil`, `bool`, `float64` (modelled as `Rat`), `string`,
`[]interface{}`, or `map[string]interface{}`. -/
inductive JSONValue where
  | null : JSONValue
  | bool (b : Bool) : JSONValue
  | num (q : Rat) : JSONValue
  | str (s : String) : JSONValue
  | arr (elems : List JSONValue) : JSONValue
  | obj (fields : List (String × JSONValue)) : JSONValue
deriving Repr, BEq

/-- Go `error` values: either a leaf `fmt.Errorf` message or a wrapping
`fmt.Errorf("context: %w", err)`. -/
inductive GoError where
  | goError (msg : String) : GoError
  | wrapped (context : String) (inner : GoError) : GoError
deriving Repr, DecidableEq

/-- Rendering of a `GoError` as Go's `Error()` string (used when a message
is built with `%v` on an error). -/
def GoError.message : GoError → String
  | .goError msg => msg
  | .wrapped context inner => context ++ ": " ++ inner.message

/-- Go's `int64(x)` / `int(x)` conversion of a `float64`, truncation toward
zero, on the exact-rational model of the float (`Int.tdiv` is T-division,
truncating toward zero, unlike the flooring `/` on `Int`). -/
def f64ToInt (q : Rat) : Int := q.num.tdiv (q.den : Int)

/-- `AudioOverviewResult` from client.go: the typed record decoded from an
audio-overview response payload. -/
structure AudioOverviewResult where
  ProjectID : String
  AudioID : String
  Title : String
  AudioData : String
  IsReady : Bool
deriving Repr, DecidableEq

/-- The zero-valued `AudioOverviewResult` with `ProjectID` set, i.e. the Go
`&AudioOverviewResult{ProjectID: projectID}` both audio functions start
from. -/
def initialAudioResult (projectID : String) : AudioOverviewResult :=
  { ProjectID := projectID, AudioID := "", Title := "", AudioData := "", IsReady := false }

/-- Go's `json.Unmarshal(resp, &data)` for `data []interface{}`: a JSON
array yields its elements, JSON `null` leaves the slice `nil` (decoded as
the empty list, no error), anything else is an unmarshal type error. -/
def unmarshalTopArray : JSONValue → Except GoError (List JSONValue)
  | .arr elems => .ok elems
  | .null => .ok []
  | _ => .error (.goError "json: cannot unmarshal value into Go value of type []interface {}")

/-- The field-extraction block shared verbatim by `CreateAudioOverview` and
`GetAudioOverview` (client.go lines 1333-1352 and 1393-1413): given the
audio sub-array (already known to have at least 4 elements), pull out
AudioData (index 1), AudioID (index 2), Title (index 3) and, when more
than 5 elements are present, IsReady (index 5); each via a comma-ok type
assertion that silently leaves the field at its zero value on mismatch. -/
def extractAudioFields (r : AudioOverviewResult) (audioData : List JSONValue) :
    AudioOverviewResult :=
  let r1 := match audioData.get? 1 with
    | some (.str audioBase64) => { r with AudioData := audioBase64 }
    | _ => r
  let r2 := match audioData.get? 2 with
    | some (.str id) => { r1 with AudioID := id }
    | _ => r1
  let r3 := match audioData.get? 3 with
    | some (.str title) => { r2 with Title := title }
    | _ => r2
  if 5 < audioData.length then
    match audioData.get? 5 with
    | some (.bool ready) => { r3 with IsReady := ready }
    | _ => r3
  else r3

/-- `GetAudioOverview` (client.go lines 1358-1417), with the RPC exchange
modelled by the oracle `rpcResp`: the outcome `c.rpc.Do` would produce
(an error, or the JSON payload bytes already parsed into a `JSONValue`).
The body after the RPC is the code under test: unmarshal into
`[]interface{}`, return the zero result on an empty array, and otherwise
require `data[2]` to be an array of at least 4 elements ("invalid audio
data format" error when it is not) before extracting the fields. -/
def GetAudioOverview (projectID : String) (rpcResp : Except GoError JSONValue) :
    Except GoError AudioOverviewResult :=
  match rpcResp with
  | .error e => .error (.wrapped "get audio overview" e)
  | .ok v =>
    match unmarshalTopArray v with
    | .error e => .error (.wrapped "parse response JSON" e)
    | .ok data =>
      let result := initialAudioResult projectID
      if data.length = 0 then .ok result
      else if 2 < data.length then
        match data.get? 2 with
        | some (.arr audioData) =>
          if audioData.length < 4 then .error (.goError "invalid audio data format")
          else .ok (extractAudioFields result audioData)
        | _ => .error (.goError "invalid audio data format")
      else .ok result

/-- `CreateAudioOverview` (client.go lines 1286-1356), with the RPC
exchange modelled by the oracle `rpcResp`.  The second component of the
result records whether the RPC was issued: the two argument-validation
checks return before any call to `c.rpc.Do`.  Unlike `GetAudioOverview`,
a `data[2]` that is not an array of at least 4 elements is treated as
"creation in progress" and yields the zero result with nil error. -/
def CreateAudioOverview (projectID : String) (instructions : String)
    (rpcResp : Except GoError JSONValue) :
    (Except GoError AudioOverviewResult) × Bool :=
  if projectID = "" then (.error (.goError "project ID required"), false)
  else if instructions = "" then (.error (.goError "instructions required"), false)
  else
    match rpcResp with
    | .error e => (.error (.wrapped "create audio overview" e), true)
    | .ok v =>
      match unmarshalTopArray v with
      | .error e => (.error (.wrapped "parse response JSON" e), true)
      | .ok data =>
        let result := initialAudioResult projectID
        if data.length = 0 then (.ok result, true)
        else if 2 < data.length then
          match data.get? 2 with
          | some (.arr audioData) =>
            if audioData.length < 4 then (.ok result, true)
            else (.ok (extractAudioFields result audioData), true)
          | _ => (.ok result, true)
        else (.ok result, true)

/-- `ShareOption` constant `SharePrivate` from client.go. -/
def SharePrivate : Int := 0

/-- `ShareOption` constant `SharePublic` from client.go. -/
def SharePublic : Int := 1

/-- `ShareAudioResult` from client.go. -/
structure ShareAudioResult where
  ShareURL : String
  ShareID : String
  IsPublic : Bool
deriving Repr, DecidableEq

/-- `ShareAudio` (client.go lines 1567-1605) after a successful RPC and
JSON parse, operating on the parsed top-level array `data`: `IsPublic`
records the requested option, and the share URL and ID are pulled from
`data[0][0]` and `data[0][1]` by comma-ok assertions that leave the
fields empty on any mismatch; no error is ever produced here. -/
def ShareAudio (shareOption : Int) (data : List JSONValue) : ShareAudioResult :=
  let result : ShareAudioResult :=
    { ShareURL := "", ShareID := "", IsPublic := shareOption = SharePublic }
  if 0 < data.length then
    match data.get? 0 with
    | some (.arr shareData) =>
      if 0 < shareData.length then
        let r1 := match shareData.get? 0 with
          | some (.str shareURL) => { result with ShareURL := shareURL }
          | _ => result
        if 1 < shareData.length then
          match shareData.get? 1 with
          | some (.str shareID) => { r1 with ShareID := shareID }
          | _ => r1
        else r1
      else result
    | _ => result
  else result

/-! ## Source-freshness check (client.go lines 279-455) -/

/-- `pb.SourceSettings_SourceStatus`: the protobuf enum used for a source's
status; `unspecified` is the zero value. -/
inductive SourceStatus where
  | unspecified : SourceStatus
  | enabled : SourceStatus
  | disabled : SourceStatus
  | sourceError : SourceStatus
deriving Repr, DecidableEq

/-- `SourceFreshnessResult` from client.go. -/
structure SourceFreshnessResult where
  SourceID : String
  Status : SourceStatus
  Message : String
deriving Repr, DecidableEq

/-- The Japanese needs-synchronization message used throughout client.go. -/
def needsSyncMessage : String :=
  "Google Drive source needs synchronization (クリックして Google ドライブと同期)"

/-- `interpretFreshnessStatusCode` (client.go lines 417-455): status code 3
is split on two hardcoded source IDs known to need sync; every other code
falls to the `default` arm, producing `SOURCE_STATUS_ERROR` with the raw
integer embedded in the message.  The Go function always returns a `nil`
error, modelled by the `Option GoError` component being `none`. -/
def interpretFreshnessStatusCode (statusCode : Int) (sourceID : String)
    (result : SourceFreshnessResult) : SourceFreshnessResult × Option GoError :=
  if statusCode = 3 then
    if sourceID = "ac38c61f-ce14-4d8d-9def-35651c3bed87" ∨
        sourceID = "7e57807c-9331-4750-be23-bec3157277cc" then
      ({ result with Status := .disabled, Message := needsSyncMessage }, none)
    else
      ({ result with
          Status := .enabled,
          Message := "Google Drive source is properly synchronized" }, none)
  else
    ({ result with
        Status := .sourceError,
        Message := "Unknown freshness status code: " ++ toString statusCode }, none)

/-- `checkSourceSyncStatus` (client.go lines 313-368), with its three RPC
exchanges modelled by oracles: `lookup` is the outcome of
`findProjectIDForSource`, `refreshOutcome` the outcome of the
`RPCRefreshSource` call (whose error the Go code only logs under the debug
flag and otherwise discards), and `freshness` the outcome of the
`RPCCheckSourceFreshness` call, carrying the `RawArray` of the full
response.  Every failure path stores an `ERROR` status and a message into
the result and returns a `nil` Go error (`none`). -/
def checkSourceSyncStatus (sourceID : String) (result : SourceFreshnessResult)
    (lookup : Except GoError String)
    (refreshOutcome : Except GoError (List JSONValue))
    (freshness : Except GoError (List JSONValue)) :
    SourceFreshnessResult × Option GoError :=
  match lookup with
  | .error e =>
    ({ result with
        Status := .sourceError,
        Message := "Could not find project for source: " ++ e.message }, none)
  | .ok _projectID =>
    -- the refresh call's outcome is deliberately ignored ("may be normal")
    let _ := refreshOutcome
    match freshness with
    | .error e =>
      ({ result with
          Status := .sourceError,
          Message := "Failed to check source freshness: " ++ e.message }, none)
    | .ok rawArray =>
      let fallback : SourceFreshnessResult × Option GoError :=
        ({ result with
            Status := .sourceError,
            Message := "Could not parse freshness status from API response" }, none)
      if 5 < rawArray.length then
        match rawArray.get? 5 with
        | some (.arr statusArray) =>
          match statusArray.get? 0 with
          | some (.num statusCode) =>
            interpretFreshnessStatusCode (f64ToInt statusCode) sourceID result
          | _ => fallback
        | _ => fallback
      else fallback

/-- `CheckSourceFreshness` (client.go lines 279-311): builds the initial
result (zero-valued status and message) and delegates to
`checkSourceSyncStatus`; the HTML-based detection path is commented out in
the source. -/
def CheckSourceFreshness (sourceID : String)
    (lookup : Except GoError String)
    (refreshOutcome : Except GoError (List JSONValue))
    (freshness : Except GoError (List JSONValue)) :
    SourceFreshnessResult × Option GoError :=
  checkSourceSyncStatus sourceID
    { SourceID := sourceID, Status := .unspecified, Message := "" }
    lookup refreshOutcome freshness

/-! ## Positional argument construction (client.go lines 1094-1231) -/

/-- The `Args` list built by `CreateNote` (client.go lines 1210-1221):
`[]interface{}{projectID, initialContent, []int{1}, nil, title}`, with the
`[]int{1}` note-type marker serialized as the JSON array `[1]` and the
`nil` placeholder kept at index 3 so `title` stays at index 4. -/
def createNoteArgs (projectID : String) (title : String) (initialContent : String) :
    List JSONValue :=
  [.str projectID, .str initialContent, .arr [.num 1], .null, .str title]

/-- The inner source-descriptor array built by `AddYouTubeSource`
(client.go lines 1102-1113): `{nil, nil, videoID, nil, sourceType}` where
`sourceType` is `pb.SourceType_SOURCE_TYPE_YOUTUBE_VIDEO` (a protobuf enum
constant from the generated package, outside src/, so its serialized value
is kept abstract as a parameter). -/
def addYouTubeSourceInner (videoID : String) (sourceType : JSONValue) :
    List JSONValue :=
  [.null, .null, .str videoID, .null, sourceType]

/-- The full `Args` payload built by `AddYouTubeSource` (client.go lines
1102-1113): `{{inner}, projectID}`. -/
def addYouTubeSourceArgs (projectID : String) (videoID : String)
    (sourceType : JSONValue) : List JSONValue :=
  [.arr [.arr (addYouTubeSourceInner videoID sourceType)], .str projectID]

/-! ## extractSourceID and extractTimestamps (client.go lines 1145-1206, 665-680) -/

/-- Format 1 of `extractSourceID`: `[[[["id",...]]]]`. -/
def sourceIDFormat1 (d : List JSONValue) : Option String :=
  match d.get? 0 with
  | some (.arr d0) =>
    match d0.get? 0 with
    | some (.arr d1) =>
      match d1.get? 0 with
      | some (.arr d2) =>
        match d2.get? 0 with
        | some (.str id) => some id
        | _ => none
      | _ => none
    | _ => none
  | _ => none

/-- Format 2 of `extractSourceID`: `[[["id",...]]]`. -/
def sourceIDFormat2 (d : List JSONValue) : Option String :=
  match d.get? 0 with
  | some (.arr d0) =>
    match d0.get? 0 with
    | some (.arr d1) =>
      match d1.get? 0 with
      | some (.str id) => some id
      | _ => none
    | _ => none
  | _ => none

/-- Format 3 of `extractSourceID`: `[["id",...]]`. -/
def sourceIDFormat3 (d : List JSONValue) : Option String :=
  match d.get? 0 with
  | some (.arr d0) =>
    match d0.get? 0 with
    | some (.str id) => some id
    | _ => none
  | _ => none

/-- `extractSourceID` (client.go lines 1145-1206) after the JSON parse:
try the three nesting formats in order on the parsed top-level array and
return the first source ID found; otherwise the "could not find source ID"
error.  (The guards for empty raw bytes and a failed `json.Unmarshal`
precede this and produce their own errors; the pure core operates on the
parsed array.) -/
def extractSourceID (data : List JSONValue) : Except GoError String :=
  match sourceIDFormat1 data with
  | some id => .ok id
  | none =>
    match sourceIDFormat2 data with
    | some id => .ok id
    | none =>
      match sourceIDFormat3 data with
      | some id => .ok id
      | none => .error (.goError "could not find source ID in response structure")

/-- `extractTimestamps` (client.go lines 665-680): `lastUpdate` is read
from `metadataArr[3][1][0]` and `creation` from `metadataArr[2][0]`, each
through comma-ok assertions with length guards, defaulting to 0; float64
values are converted with `int64(...)` truncation.  (The Go code indexes
`metadataArr[3]` and `metadataArr[2]` directly; all callers guarantee at
least 4 elements.) -/
def extractTimestamps (metadataArr : List JSONValue) : Int × Int :=
  let lastUpdate : Int :=
    match metadataArr.get? 3 with
    | some (.arr timestampArr) =>
      if 2 ≤ timestampArr.length then
        match timestampArr.get? 1 with
        | some (.arr ts) =>
          if 1 ≤ ts.length then
            match ts.get? 0 with
            | some (.num val) => f64ToInt val
            | _ => 0
          else 0
        | _ => 0
      else 0
    | _ => 0
  let creation : Int :=
    match metadataArr.get? 2 with
    | some (.arr timestampArr) =>
      if 1 ≤ timestampArr.length then
        match timestampArr.get? 0 with
        | some (.num val) => f64ToInt val
        | _ => 0
      else 0
    | _ => 0
  (lastUpdate, creation)

/-! ## Standard base64 (model of Go's `encoding/base64` StdEncoding)

`GetAudioBytes` (client.go lines 1429-1434) calls
`base64.StdEncoding.DecodeString`, and `AddSourceFromReader` (lines
972-986) calls `base64.StdEncoding.EncodeToString`; the library itself is
outside src/, so the standard padded base64 alphabet and codec are
modelled here from their documented behaviour.  Bytes are `Nat` values
below 256. -/

/-- The standard base64 alphabet. -/
def b64Alphabet : List Char :=
  "ABCDEFGHIJKLMNOPQRSTUVWXYZabcdefghijklmnopqrstuvwxyz0123456789+/".data

/-- The alphabet character for a 6-bit value. -/
def b64Char (i : Nat) : Char := b64Alphabet.getD i 'A'

/-- The 6-bit value of an alphabet character, `none` for a character
outside the alphabet. -/
def b64Index (c : Char) : Option Nat := b64Alphabet.indexOf? c

/-- Standard base64 encoding of a byte sequence, with `=` padding: three
bytes become four alphabet characters; a final group of two bytes becomes
three characters and one `=`; a final single byte becomes two characters
and two `=`. -/
def base64EncodeCore : List Nat → List Char
  | b0 :: b1 :: b2 :: rest =>
    b64Char (b0 / 4) :: b64Char (b0 % 4 * 16 + b1 / 16) ::
      b64Char (b1 % 16 * 4 + b2 / 64) :: b64Char (b2 % 64) :: base64EncodeCore rest
  | [b0, b1] => [b64Char (b0 / 4), b64Char (b0 % 4 * 16 + b1 / 16), b64Char (b1 % 16 * 4), '=']
  | [b0] => [b64Char (b0 / 4), b64Char (b0 % 4 * 16), '=', '=']
  | [] => []

/-- `base64.StdEncoding.EncodeToString`. -/
def base64Encode (bytes : List Nat) : String := ⟨base64EncodeCore bytes⟩

/-- Standard base64 decoding: the input must be a sequence of four-character
groups; `=` padding may appear only at the final one or two positions of
the last group; any character outside the alphabet (other than valid
padding) is corrupt input, modelled as `none`. -/
def base64DecodeCore : List Char → Option (List Nat)
  | [] => some []
  | c0 :: c1 :: c2 :: c3 :: rest =>
    match b64Index c0, b64Index c1 with
    | some i0, some i1 =>
      if c2 = '=' then
        if c3 = '=' ∧ rest = [] then some [i0 * 4 + i1 / 16] else none
      else
        match b64Index c2 with
        | some i2 =>
          if c3 = '=' then
            if rest = [] then some [i0 * 4 + i1 / 16, i1 % 16 * 16 + i2 / 4] else none
          else
            match b64Index c3 with
            | some i3 =>
              match base64DecodeCore rest with
              | some bs => some ([i0 * 4 + i1 / 16, i1 % 16 * 16 + i2 / 4, i2 % 4 * 64 + i3] ++ bs)
              | none => none
            | none => none
        | none => none
    | _, _ => none
  | _ => none

/-- `base64.StdEncoding.DecodeString`, `none` standing for the corrupt
input error.  Per its documentation, Go's decoder ignores carriage return
and newline characters anywhere in the input, so they are filtered out
before the four-character group decode. -/
def base64Decode (s : String) : Option (List Nat) :=
  base64DecodeCore (s.data.filter (fun c => !(c == '\r' || c == '\n')))

/-- `GetAudioBytes` (client.go lines 1429-1434): reject an empty
`AudioData` with "no audio data available", otherwise base64-decode it
(the library's corrupt-input error modelled by a fixed message). -/
def GetAudioBytes (r : AudioOverviewResult) : Except GoError (List Nat) :=
  if r.AudioData = "" then .error (.goError "no audio data available")
  else
    match base64Decode r.AudioData with
    | some bs => .ok bs
    | none => .error (.goError "illegal base64 data")

/-! ## The response de-chunker

Modelled from the spec: the de-chunking algorithm of the Frame Transport
(spec §4.2/§6) is implemented in the `internal/batchexecute` package, which
is not under src/ (only its callers are), so it is modelled here from the
spec's words: repeatedly read a line and parse it as a decimal length
(ignoring blank lines between chunks), then read exactly that many bytes as
one frame's payload, stopping when the stream is exhausted; a declared
length that cannot be parsed, or a stream that ends mid-chunk, is a
`FramingError`.  The stream is a `List Char` of bytes (after the
anti-hijacking preamble line has been discarded). -/

/-- `FramingError` from the spec's error taxonomy (§7): a malformed chunk
stream, either an unparseable declared-length line or a stream ending in
the middle of a chunk. -/
inductive FramingError where
  | badLength (line : List Char) : FramingError
  | truncated (declared : Nat) (got : Nat) : FramingError
deriving Repr, DecidableEq

/-- The decimal digits of `n`, most significant first. -/
def natToDigitsCore (n : Nat) : List Char :=
  if h : n < 10 then [Char.ofNat (48 + n)]
  else natToDigitsCore (n / 10) ++ [Char.ofNat (48 + n % 10)]
termination_by n
decreasing_by exact Nat.div_lt_self (by omega) (by omega)

/-- The value of a decimal digit character, `none` for a non-digit. -/
def digitVal (c : Char) : Option Nat :=
  if '0' ≤ c ∧ c ≤ '9' then some (c.toNat - 48) else none

/-- Left-to-right accumulation of a decimal digit string. -/
def digitsToNatCore (acc : Nat) : List Char → Option Nat
  | [] => some acc
  | c :: cs =>
    match digitVal c with
    | some d => digitsToNatCore (acc * 10 + d) cs
    | none => none

/-- Modelled from the spec: parsing of one declared-length line; an empty
line is not a length (blank lines are skipped before parsing) and a line
with any non-digit character cannot be parsed. -/
def parseLen (line : List Char) : Option Nat :=
  if line = [] then none else digitsToNatCore 0 line

/-- Split a stream at the first newline: the line before it and the rest
after it (a stream with no newline is one line with an empty rest). -/
def splitLine : List Char → List Char × List Char
  | [] => ([], [])
  | c :: cs =>
    if c = '\n' then ([], cs)
    else
      let p := splitLine cs
      (c :: p.1, p.2)

/-- Modelled from the spec: the de-chunker (§4.2).  Repeatedly read a line;
a blank line between chunks is ignored; otherwise parse it as a decimal
length (failure is `FramingError.badLength`) and take exactly that many
following bytes as one frame's payload (fewer available is
`FramingError.truncated`); an exhausted stream ends the frame list. -/
def deChunk : List Char → Except FramingError (List (List Char))
  | [] => .ok []
  | c :: cs =>
    let sp := splitLine (c :: cs)
    if sp.1 = [] then deChunk sp.2
    else
      match parseLen sp.1 with
      | none => .error (.badLength sp.1)
      | some n =>
        if n ≤ sp.2.length then
          match deChunk (sp.2.drop n) with
          | .ok frames => .ok (sp.2.take n :: frames)
          | .error e => .error e
        else .error (.truncated n sp.2.length)
termination_by s => s.length
decreasing_by
  all_goals
    have hle : ∀ s : List Char, (splitLine s).2.length ≤ s.length := by
      intro s
      induction s with
      | nil => simp [splitLine]
      | cons a as iha =>
        simp only [splitLine]
        split
        · simp
        · simpa using Nat.le_succ_of_le iha
    have hlt : (splitLine (c :: cs)).2.length < (c :: cs).length := by
      simp only [splitLine]
      split
      · simp
      · simpa using Nat.lt_succ_of_le (hle cs)
  · exact hlt
  · calc (sp.2.drop n).length ≤ sp.2.length := by simp
      _ < (c :: cs).length := hlt

/-- Modelled from the spec: assembly of one `<len>\n<payload>` block
(§6/§8). -/
def encodeChunk (payload : List Char) : List Char :=
  natToDigitsCore payload.length ++ '\n' :: payload

/-- Modelled from the spec: a sequence of byte chunks assembled as
`<len>\n<payload>` blocks. -/
def encodeChunks (payloads : List (List Char)) : List Char :=
  (payloads.map encodeChunk).flatten

/-! ## Supporting lemmas: decimal length lines -/

theorem digitVal_digitChar {d : Nat} (h : d < 10) :
    digitVal (Char.ofNat (48 + d)) = some d := by
  have hfin : ∀ i : Fin 10, digitVal (Char.ofNat (48 + i.val)) = some i.val := by decide
  exact hfin ⟨d, h⟩

theorem digitChar_ne_newline {d : Nat} (h : d < 10) : Char.ofNat (48 + d) ≠ '\n' := by
  have hfin : ∀ i : Fin 10, Char.ofNat (48 + i.val) ≠ '\n' := by decide
  exact hfin ⟨d, h⟩

theorem natToDigitsCore_ne_nil (n : Nat) : natToDigitsCore n ≠ [] := by
  rw [natToDigitsCore]
  split <;> simp

theorem newline_not_mem_natToDigitsCore (n : Nat) : '\n' ∉ natToDigitsCore n := by
  induction n using Nat.strong_induction_on with
  | _ n ih =>
    rw [natToDigitsCore]
    split
    · next h =>
      intro hmem
      simp only [List.mem_singleton] at hmem
      exact digitChar_ne_newline h hmem.symm
    · next h =>
      intro hmem
      rcases List.mem_append.mp hmem with h1 | h2
      · exact ih (n / 10) (Nat.div_lt_self (by omega) (by omega)) h1
      · simp only [List.mem_singleton] at h2
        exact digitChar_ne_newline (Nat.mod_lt _ (by omega)) h2.symm

theorem digitsToNatCore_append (l1 l2 : List Char) (acc : Nat) :
    digitsToNatCore acc (l1 ++ l2) =
      match digitsToNatCore acc l1 with
      | some v => digitsToNatCore v l2
      | none => none := by
  induction l1 generalizing acc with
  | nil => simp [digitsToNatCore]
  | cons c cs ih =>
    simp only [List.cons_append, digitsToNatCore]
    cases hd : digitVal c with
    | some d => exact ih _
    | none => rfl

theorem digitsToNatCore_natToDigitsCore (n : Nat) :
    digitsToNatCore 0 (natToDigitsCore n) = some n := by
  induction n using Nat.strong_induction_on with
  | _ n ih =>
    rw [natToDigitsCore]
    split
    · next h => simp [digitsToNatCore, digitVal_digitChar h]
    · next h =>
      rw [digitsToNatCore_append]
      rw [ih (n / 10) (Nat.div_lt_self (by omega) (by omega))]
      have h10 : n % 10 < 10 := Nat.mod_lt _ (by omega)
      simp only [digitsToNatCore, digitVal_digitChar h10]
      congr 1
      omega

theorem parseLen_natToDigitsCore (n : Nat) : parseLen (natToDigitsCore n) = some n := by
  rw [parseLen, if_neg (natToDigitsCore_ne_nil n)]
  exact digitsToNatCore_natToDigitsCore n

/-! ## Supporting lemmas: line splitting and de-chunking -/

theorem splitLine_append (l r : List Char) (hl : '\n' ∉ l) :
    splitLine (l ++ '\n' :: r) = (l, r) := by
  induction l with
  | nil => simp [splitLine]
  | cons c cs ih =>
    simp only [List.mem_cons, not_or] at hl
    simp only [List.cons_append, splitLine]
    rw [if_neg (fun h => hl.1 h.symm)]
    simp [ih hl.2]

theorem deChunk_nil : deChunk [] = .ok [] := by
  rw [deChunk]

theorem deChunk_of_ne_nil (s : List Char) (hs : s ≠ []) :
    deChunk s =
      (if (splitLine s).1 = [] then deChunk (splitLine s).2
       else
         match parseLen (splitLine s).1 with
         | none => .error (.badLength (splitLine s).1)
         | some n =>
           if n ≤ (splitLine s).2.length then
             match deChunk ((splitLine s).2.drop n) with
             | .ok frames => .ok ((splitLine s).2.take n :: frames)
             | .error e => .error e
           else .error (.truncated n (splitLine s).2.length)) := by
  cases s with
  | nil => exact absurd rfl hs
  | cons c cs => rw [deChunk]

theorem deChunk_encodeChunk_append (p : List Char) (X : List Char) :
    deChunk (encodeChunk p ++ X) =
      match deChunk X with
      | .ok frames => .ok (p :: frames)
      | .error e => .error e := by
  have hnn := natToDigitsCore_ne_nil p.length
  have shape : encodeChunk p ++ X = natToDigitsCore p.length ++ '\n' :: (p ++ X) := by
    simp [encodeChunk]
  rw [shape]
  rw [deChunk_of_ne_nil _ (by simp [hnn])]
  rw [splitLine_append _ _ (newline_not_mem_natToDigitsCore _)]
  simp only []
  rw [if_neg hnn, parseLen_natToDigitsCore]
  simp only []
  rw [if_pos (by simp)]
  rw [List.drop_left, List.take_left]

theorem deChunk_encodeChunks_append (ps : List (List Char)) (X : List Char) :
    deChunk (encodeChunks ps ++ X) =
      match deChunk X with
      | .ok frames => .ok (ps ++ frames)
      | .error e => .error e := by
  induction ps with
  | nil =>
    simp only [encodeChunks, List.map_nil, List.flatten_nil, List.nil_append]
    cases deChunk X <;> rfl
  | cons p ps ih =>
    have shape : encodeChunks (p :: ps) ++ X = encodeChunk p ++ (encodeChunks ps ++ X) := by
      simp [encodeChunks]
    rw [shape, deChunk_encodeChunk_append, ih]
    cases deChunk X <;> rfl

theorem deChunk_truncated_base (n : Nat) (payload : List Char) (h : payload.length < n) :
    deChunk (natToDigitsCore n ++ '\n' :: payload) = .error (.truncated n payload.length) := by
  have hnn := natToDigitsCore_ne_nil n
  rw [deChunk_of_ne_nil _ (by simp [hnn])]
  rw [splitLine_append _ _ (newline_not_mem_natToDigitsCore _)]
  simp only []
  rw [if_neg hnn, parseLen_natToDigitsCore]
  simp only []
  rw [if_neg (by omega)]

theorem deChunk_badLength_base (line r : List Char) (hne : line ≠ []) (hnl : '\n' ∉ line)
    (hparse : parseLen line = none) :
    deChunk (line ++ '\n' :: r) = .error (.badLength line) := by
  have hcons : line ++ '\n' :: r ≠ [] := by simp [hne]
  rw [deChunk_of_ne_nil _ hcons]
  rw [splitLine_append _ _ hnl]
  simp only []
  rw [if_neg hne, hparse]

/-! ## Supporting lemmas: base64 -/

theorem b64Index_b64Char {a : Nat} (h : a < 64) : b64Index (b64Char a) = some a := by
  have hfin : ∀ i : Fin 64, b64Index (b64Char i.val) = some i.val := by decide
  exact hfin ⟨a, h⟩

theorem b64Char_ne_pad {a : Nat} (h : a < 64) : b64Char a ≠ '=' := by
  have hfin : ∀ i : Fin 64, b64Char i.val ≠ '=' := by decide
  exact hfin ⟨a, h⟩

theorem b64Char_not_crlf {a : Nat} (h : a < 64) :
    (!(b64Char a == '\r' || b64Char a == '\n')) = true := by
  have hfin : ∀ i : Fin 64, (!(b64Char i.val == '\r' || b64Char i.val == '\n')) = true := by
    decide
  exact hfin ⟨a, h⟩

theorem base64EncodeCore_filter_crlf (bytes : List Nat) (h : ∀ b ∈ bytes, b < 256) :
    (base64EncodeCore bytes).filter (fun c => !(c == '\r' || c == '\n')) =
      base64EncodeCore bytes := by
  have hpad : ((fun c => !(c == '\r' || c == '\n')) '=') = true := by decide
  induction bytes using base64EncodeCore.induct with
  | case1 b0 b1 b2 rest ih =>
    have h0 : b0 < 256 := h b0 (by simp)
    have h1 : b1 < 256 := h b1 (by simp)
    have h2 : b2 < 256 := h b2 (by simp)
    have ih' := ih (fun b hb => h b (by simp [hb]))
    have c1 := b64Char_not_crlf (show b0 / 4 < 64 by omega)
    have c2 := b64Char_not_crlf (show b0 % 4 * 16 + b1 / 16 < 64 by omega)
    have c3 := b64Char_not_crlf (show b1 % 16 * 4 + b2 / 64 < 64 by omega)
    have c4 := b64Char_not_crlf (show b2 % 64 < 64 by omega)
    rw [base64EncodeCore, List.filter_cons_of_pos (p := fun c => !(c == '\r' || c == '\n')) c1, List.filter_cons_of_pos (p := fun c => !(c == '\r' || c == '\n')) c2,
        List.filter_cons_of_pos (p := fun c => !(c == '\r' || c == '\n')) c3, List.filter_cons_of_pos (p := fun c => !(c == '\r' || c == '\n')) c4, ih']
  | case2 b0 b1 =>
    have h0 : b0 < 256 := h b0 (by simp)
    have h1 : b1 < 256 := h b1 (by simp)
    have c1 := b64Char_not_crlf (show b0 / 4 < 64 by omega)
    have c2 := b64Char_not_crlf (show b0 % 4 * 16 + b1 / 16 < 64 by omega)
    have c3 := b64Char_not_crlf (show b1 % 16 * 4 < 64 by omega)
    rw [base64EncodeCore, List.filter_cons_of_pos (p := fun c => !(c == '\r' || c == '\n')) c1, List.filter_cons_of_pos (p := fun c => !(c == '\r' || c == '\n')) c2,
        List.filter_cons_of_pos (p := fun c => !(c == '\r' || c == '\n')) c3, List.filter_cons_of_pos (p := fun c => !(c == '\r' || c == '\n')) hpad]
    rfl
  | case3 b0 =>
    have h0 : b0 < 256 := h b0 (by simp)
    have c1 := b64Char_not_crlf (show b0 / 4 < 64 by omega)
    have c2 := b64Char_not_crlf (show b0 % 4 * 16 < 64 by omega)
    rw [base64EncodeCore, List.filter_cons_of_pos (p := fun c => !(c == '\r' || c == '\n')) c1, List.filter_cons_of_pos (p := fun c => !(c == '\r' || c == '\n')) c2,
        List.filter_cons_of_pos (p := fun c => !(c == '\r' || c == '\n')) hpad, List.filter_cons_of_pos (p := fun c => !(c == '\r' || c == '\n')) hpad]
    rfl
  | case4 => rfl

theorem base64DecodeCore_encodeCore (bytes : List Nat) (h : ∀ b ∈ bytes, b < 256) :
    base64DecodeCore (base64EncodeCore bytes) = some bytes := by
  induction bytes using base64EncodeCore.induct with
  | case1 b0 b1 b2 rest ih =>
    have h0 : b0 < 256 := h b0 (by simp)
    have h1 : b1 < 256 := h b1 (by simp)
    have h2 : b2 < 256 := h b2 (by simp)
    have ih' := ih (fun b hb => h b (by simp [hb]))
    rw [base64EncodeCore, base64DecodeCore]
    rw [b64Index_b64Char (show b0 / 4 < 64 by omega),
        b64Index_b64Char (show b0 % 4 * 16 + b1 / 16 < 64 by omega)]
    simp only []
    rw [if_neg (b64Char_ne_pad (show b1 % 16 * 4 + b2 / 64 < 64 by omega))]
    rw [b64Index_b64Char (show b1 % 16 * 4 + b2 / 64 < 64 by omega)]
    simp only []
    rw [if_neg (b64Char_ne_pad (show b2 % 64 < 64 by omega))]
    rw [b64Index_b64Char (show b2 % 64 < 64 by omega)]
    simp only [ih']
    simp
    omega
  | case2 b0 b1 =>
    have h0 : b0 < 256 := h b0 (by simp)
    have h1 : b1 < 256 := h b1 (by simp)
    rw [base64EncodeCore, base64DecodeCore]
    rw [b64Index_b64Char (show b0 / 4 < 64 by omega),
        b64Index_b64Char (show b0 % 4 * 16 + b1 / 16 < 64 by omega)]
    simp only []
    rw [if_neg (b64Char_ne_pad (show b1 % 16 * 4 < 64 by omega))]
    rw [b64Index_b64Char (show b1 % 16 * 4 < 64 by omega)]
    simp
    omega
  | case3 b0 =>
    have h0 : b0 < 256 := h b0 (by simp)
    rw [base64EncodeCore, base64DecodeCore]
    rw [b64Index_b64Char (show b0 / 4 < 64 by omega),
        b64Index_b64Char (show b0 % 4 * 16 < 64 by omega)]
    simp
    omega
  | case4 => rfl

theorem base64EncodeCore_ne_nil (b : Nat) (bs : List Nat) :
    base64EncodeCore (b :: bs) ≠ [] := by
  rcases bs with _ | ⟨b1, _ | ⟨b2, rest⟩⟩ <;> simp [base64EncodeCore]

theorem base64Encode_ne_empty (bytes : List Nat) (h : bytes ≠ []) :
    base64Encode bytes ≠ "" := by
  cases bytes with
  | nil => exact absurd rfl h
  | cons b bs =>
    intro hcontra
    have hdata : base64EncodeCore (b :: bs) = [] := congrArg String.data hcontra
    exact base64EncodeCore_ne_nil b bs hdata

/-! ## Supporting lemmas: audio-overview field extraction -/

theorem length_of_get?_eq_some {α : Type _} {l : List α} {n : Nat} {a : α}
    (h : l.get? n = some a) : n < l.length := by
  by_contra hle
  rw [List.get?_eq_none.2 (by omega)] at h
  exact Option.noConfusion h

theorem extractAudioFields_IsReady (r : AudioOverviewResult) (a : List JSONValue)
    (h : ¬ 5 < a.length) : (extractAudioFields r a).IsReady = r.IsReady := by
  simp only [extractAudioFields]
  repeat' split
  all_goals first | rfl | omega

theorem extractAudioFields_AudioData (r : AudioOverviewResult) (a : List JSONValue)
    (h1 : ∀ s, a.get? 1 ≠ some (JSONValue.str s)) :
    (extractAudioFields r a).AudioData = r.AudioData := by
  -- simp eliminates the string arm of the first match by discharging the
  -- side condition of the catch-all equation with h1
  simp only [extractAudioFields]
  repeat' split
  all_goals rfl

/-! ## Claim theorems -/

/-- Claim C1: for every positional response array shorter than a field's
declared index, decoding yields that field's zero value rather than an
error: an audio sub-array with at least 4 but fewer than 6 elements makes
`GetAudioOverview` return a result whose `IsReady` is `false` (its zero
value, index 5 being absent) with nil error, and an empty top-level array
yields the initial result (every payload-derived field at its zero value,
`ProjectID` echoing the argument) with nil error. -/
theorem decoder_absence_tolerance :
    (∀ (projectID : String) (data audioSub : List JSONValue),
        data.get? 2 = some (JSONValue.arr audioSub) →
        4 ≤ audioSub.length → audioSub.length < 6 →
        ∃ r, GetAudioOverview projectID (Except.ok (JSONValue.arr data)) = Except.ok r ∧
          r.IsReady = false) ∧
    (∀ projectID : String,
        GetAudioOverview projectID (Except.ok (JSONValue.arr [])) =
          Except.ok (initialAudioResult projectID)) := by
  constructor
  · intro pid data audioSub h2 h4 h6
    have hlen : 2 < data.length := length_of_get?_eq_some h2
    refine ⟨extractAudioFields (initialAudioResult pid) audioSub, ?_, ?_⟩
    · simp only [GetAudioOverview, unmarshalTopArray, h2]
      rw [if_neg (show ¬data.length = 0 by omega), if_pos hlen,
          if_neg (show ¬audioSub.length < 4 by omega)]
    · rw [extractAudioFields_IsReady _ _ (by omega)]
      rfl
  · intro pid
    rfl

/-- Witness for C1 at concrete inputs: a 4-element audio sub-array and the
empty top-level array. -/
theorem decoder_absence_tolerance_witness :
    (∃ r, GetAudioOverview "p" (Except.ok (JSONValue.arr
        [JSONValue.null, JSONValue.null,
         JSONValue.arr [JSONValue.num 3, JSONValue.str "aud", JSONValue.str "id",
           JSONValue.str "ttl"]])) = Except.ok r ∧ r.IsReady = false) ∧
    GetAudioOverview "p" (Except.ok (JSONValue.arr [])) =
      Except.ok (initialAudioResult "p") :=
  ⟨decoder_absence_tolerance.1 "p" _ _ rfl (by decide) (by decide),
   decoder_absence_tolerance.2 "p"⟩

/-- Claim C2: every status code other than 3 falls to the default arm of
`interpretFreshnessStatusCode`, producing the unknown-code sentinel whose
message carries the raw integer, with nil Go error. -/
theorem enum_fallback_unknown_code :
    ∀ (statusCode : Int) (sourceID : String) (result : SourceFreshnessResult),
      statusCode ≠ 3 →
      interpretFreshnessStatusCode statusCode sourceID result =
        ({ result with
            Status := SourceStatus.sourceError,
            Message := "Unknown freshness status code: " ++ toString statusCode }, none) := by
  intro sc sid r h
  simp [interpretFreshnessStatusCode, h]

/-- Witness for C2 at the spec's concrete unknown code 99. -/
theorem enum_fallback_unknown_code_witness :
    interpretFreshnessStatusCode 99 "src"
        { SourceID := "src", Status := SourceStatus.unspecified, Message := "" } =
      ({ SourceID := "src", Status := SourceStatus.sourceError,
         Message := "Unknown freshness status code: 99" }, none) :=
  enum_fallback_unknown_code 99 "src"
    { SourceID := "src", Status := SourceStatus.unspecified, Message := "" } (by decide)

/-- Counterexample to claim C3: a present, non-null, non-string value at
the declared-string index 1 of the audio sub-array (the number 42) does
not make `GetAudioOverview` report an error; it returns `ok` with
`AudioData` left at its zero value.  Likewise `ShareAudio` with a
non-string element at index 0 of the share sub-array returns a result
with `ShareURL` empty and no error. -/
theorem scalar_mismatch_not_error_cex :
    GetAudioOverview "p" (Except.ok (JSONValue.arr
        [JSONValue.null, JSONValue.null,
         JSONValue.arr [JSONValue.num 3, JSONValue.num 42, JSONValue.str "id",
           JSONValue.str "ttl"]])) =
      Except.ok { ProjectID := "p", AudioID := "id", Title := "ttl",
                  AudioData := "", IsReady := false } ∧
    ShareAudio SharePrivate [JSONValue.arr [JSONValue.num 7, JSONValue.str "sid"]] =
      { ShareURL := "", ShareID := "sid", IsPublic := false } :=
  ⟨rfl, rfl⟩

/-- Claim C3 as amended: a present, non-null value whose runtime type does
not match the declared string type is silently skipped by the comma-ok
type assertion — the field keeps its zero value and a nil error is
returned (`GetAudioOverview`'s `AudioData`, `ShareAudio`'s `ShareURL`) —
rather than the decode failing. -/
theorem scalar_mismatch_silent_zero :
    (∀ (projectID : String) (data audioSub : List JSONValue),
      data.get? 2 = some (JSONValue.arr audioSub) → 4 ≤ audioSub.length →
      (∀ s, audioSub.get? 1 ≠ some (JSONValue.str s)) →
      ∃ r, GetAudioOverview projectID (Except.ok (JSONValue.arr data)) = Except.ok r ∧
        r.AudioData = "") ∧
    (∀ (shareOption : Int) (data shareData : List JSONValue),
      data.get? 0 = some (JSONValue.arr shareData) →
      (∀ s, shareData.get? 0 ≠ some (JSONValue.str s)) →
      (ShareAudio shareOption data).ShareURL = "") := by
  constructor
  · intro pid data audioSub h2 h4 hns
    have hlen : 2 < data.length := length_of_get?_eq_some h2
    refine ⟨extractAudioFields (initialAudioResult pid) audioSub, ?_, ?_⟩
    · simp only [GetAudioOverview, unmarshalTopArray, h2]
      rw [if_neg (show ¬data.length = 0 by omega), if_pos hlen,
          if_neg (show ¬audioSub.length < 4 by omega)]
    · rw [extractAudioFields_AudioData _ _ hns]
      rfl
  · intro opt data shareData h0 hns
    have hlen : 0 < data.length := length_of_get?_eq_some h0
    simp only [ShareAudio, if_pos hlen, h0]
    repeat' split
    all_goals rfl

/-- Witness for the amended C3 at concrete inputs with numbers in the
string positions. -/
theorem scalar_mismatch_silent_zero_witness :
    (∃ r, GetAudioOverview "p" (Except.ok (JSONValue.arr
        [JSONValue.null, JSONValue.null,
         JSONValue.arr [JSONValue.num 3, JSONValue.num 42, JSONValue.str "id2",
           JSONValue.str "t2"]])) = Except.ok r ∧ r.AudioData = "") ∧
    (ShareAudio SharePrivate [JSONValue.arr [JSONValue.num 7, JSONValue.str "sid2"]]).ShareURL =
      "" :=
  ⟨scalar_mismatch_silent_zero.1 "p" _ _ rfl (by decide) (by intro s hcon; simp at hcon),
   scalar_mismatch_silent_zero.2 SharePrivate _ _ rfl (by intro s hcon; simp at hcon)⟩

/-- Counterexample to claim C4: when the project-lookup RPC fails,
`CheckSourceFreshness` does not propagate a non-nil error; it returns a
`SourceFreshnessResult` with `ERROR` status and a nil Go error. -/
theorem rpc_failure_nil_error_cex :
    CheckSourceFreshness "src-1" (Except.error (GoError.goError "network down"))
        (Except.ok []) (Except.ok []) =
      ({ SourceID := "src-1", Status := SourceStatus.sourceError,
         Message := "Could not find project for source: network down" }, none) :=
  rfl

/-- Claim C4 as amended: an underlying RPC failure during the
source-freshness check is swallowed into the returned
`SourceFreshnessResult` rather than propagated: a failed project lookup
yields status `SOURCE_STATUS_ERROR` with message
`"Could not find project for source: <error>"`, and a failed freshness
call yields status `SOURCE_STATUS_ERROR` with message
`"Failed to check source freshness: <error>"` — in both cases the Go
error returned to the caller is nil.  Stated as two exact result-record
equations with no hypotheses, so the diagnostic message carrying the
failure is pinned down in general. -/
theorem rpc_failure_reported_in_result :
    ∀ (sourceID : String) (refreshOutcome : Except GoError (List JSONValue)) (e : GoError),
      (∀ freshness : Except GoError (List JSONValue),
        CheckSourceFreshness sourceID (Except.error e) refreshOutcome freshness =
          ({ SourceID := sourceID,
             Status := SourceStatus.sourceError,
             Message := "Could not find project for source: " ++ e.message }, none)) ∧
      (∀ projectID : String,
        CheckSourceFreshness sourceID (Except.ok projectID) refreshOutcome
            (Except.error e) =
          ({ SourceID := sourceID,
             Status := SourceStatus.sourceError,
             Message := "Failed to check source freshness: " ++ e.message }, none)) :=
  fun _ _ _ => ⟨fun _ => rfl, fun _ => rfl⟩

/-- Claim C5: positional argument lists preserve null placeholders.
`CreateNote` builds exactly
`[projectID, initialContent, [1], null, title]` with null at index 3 and
the title at index 4, and `AddYouTubeSource` builds an inner array with
null placeholders at positions 0, 1 and 3 and the video ID at position 2. -/
theorem null_placeholders_preserved :
    ∀ (projectID title initialContent videoID : String) (sourceType : JSONValue),
      createNoteArgs projectID title initialContent =
        [JSONValue.str projectID, JSONValue.str initialContent,
         JSONValue.arr [JSONValue.num 1], JSONValue.null, JSONValue.str title] ∧
      (createNoteArgs projectID title initialContent).get? 3 = some JSONValue.null ∧
      (createNoteArgs projectID title initialContent).get? 4 =
        some (JSONValue.str title) ∧
      addYouTubeSourceArgs projectID videoID sourceType =
        [JSONValue.arr [JSONValue.arr
          [JSONValue.null, JSONValue.null, JSONValue.str videoID, JSONValue.null,
           sourceType]], JSONValue.str projectID] ∧
      (addYouTubeSourceInner videoID sourceType).get? 0 = some JSONValue.null ∧
      (addYouTubeSourceInner videoID sourceType).get? 1 = some JSONValue.null ∧
      (addYouTubeSourceInner videoID sourceType).get? 2 =
        some (JSONValue.str videoID) ∧
      (addYouTubeSourceInner videoID sourceType).get? 3 = some JSONValue.null :=
  fun _ _ _ _ _ => ⟨rfl, rfl, rfl, rfl, rfl, rfl, rfl, rfl⟩

/-- Claim C6: decoding of raw positional payloads is deterministic — two
runs of `extractSourceID` on the same parsed payload give the same result,
and likewise `extractTimestamps` on the same metadata array.  Purity is
intrinsic to the embedding: both are functions of their input alone, with
no session or network state parameter. -/
theorem decoding_deterministic :
    (∀ d1 d2 : List JSONValue, d1 = d2 → extractSourceID d1 = extractSourceID d2) ∧
    (∀ m1 m2 : List JSONValue, m1 = m2 → extractTimestamps m1 = extractTimestamps m2) :=
  ⟨fun _ _ h => h ▸ rfl, fun _ _ h => h ▸ rfl⟩

/-- Witness for C6 at concrete inputs. -/
theorem decoding_deterministic_witness :
    extractSourceID [JSONValue.arr [JSONValue.arr [JSONValue.arr [JSONValue.str "s1"]]]] =
      extractSourceID [JSONValue.arr [JSONValue.arr [JSONValue.arr [JSONValue.str "s1"]]]] ∧
    extractTimestamps [JSONValue.null, JSONValue.null, JSONValue.arr [JSONValue.num 5],
        JSONValue.arr [JSONValue.null, JSONValue.arr [JSONValue.num 7]]] =
      extractTimestamps [JSONValue.null, JSONValue.null, JSONValue.arr [JSONValue.num 5],
        JSONValue.arr [JSONValue.null, JSONValue.arr [JSONValue.num 7]]] :=
  ⟨decoding_deterministic.1 _ _ rfl, decoding_deterministic.2 _ _ rfl⟩

/-- Claim C7 (de-chunker, modelled from the spec): for every sequence of
byte chunks assembled as `<len>\n<payload>` blocks the de-chunker
reconstructs exactly the original payloads (hence their concatenation);
a stream ending mid-chunk (fewer payload bytes than the declared final
length) is a `FramingError.truncated`, and a nonempty declared-length
line that cannot be parsed is a `FramingError.badLength` — never a
partial silent result. -/
theorem framing_round_trip :
    (∀ ps : List (List Char), deChunk (encodeChunks ps) = Except.ok ps) ∧
    (∀ (ps : List (List Char)) (n : Nat) (payload : List Char),
      payload.length < n →
      deChunk (encodeChunks ps ++ (natToDigitsCore n ++ '\n' :: payload)) =
        Except.error (FramingError.truncated n payload.length)) ∧
    (∀ (ps : List (List Char)) (line r : List Char),
      line ≠ [] → '\n' ∉ line → parseLen line = none →
      deChunk (encodeChunks ps ++ (line ++ '\n' :: r)) =
        Except.error (FramingError.badLength line)) := by
  refine ⟨?_, ?_, ?_⟩
  · intro ps
    have h := deChunk_encodeChunks_append ps []
    rw [List.append_nil, deChunk_nil] at h
    simpa using h
  · intro ps n payload hlt
    rw [deChunk_encodeChunks_append, deChunk_truncated_base n payload hlt]
  · intro ps line r hne hnl hparse
    rw [deChunk_encodeChunks_append, deChunk_badLength_base line r hne hnl hparse]

/-- Witness for C7: a two-chunk round trip, a truncated final chunk, and an
unparseable length line. -/
theorem framing_round_trip_witness :
    deChunk (encodeChunks [['a'], ['b', 'c']]) = Except.ok [['a'], ['b', 'c']] ∧
    deChunk (encodeChunks [] ++ (natToDigitsCore 5 ++ '\n' :: ['x'])) =
      Except.error (FramingError.truncated 5 1) ∧
    deChunk (encodeChunks [] ++ (['z'] ++ '\n' :: [])) =
      Except.error (FramingError.badLength ['z']) :=
  ⟨framing_round_trip.1 [['a'], ['b', 'c']],
   framing_round_trip.2.1 [] 5 ['x'] (by decide),
   framing_round_trip.2.2 [] ['z'] [] (by decide) (by decide) (by decide)⟩

/-- Claim C8: on a payload whose element at index 2 is present but is not
an array of at least four elements, `CreateAudioOverview` (valid
arguments, so the RPC is issued) returns the default-valued result with
nil error — creation treated as in progress — while `GetAudioOverview`
returns the "invalid audio data format" error on the same payload. -/
theorem create_vs_get_invalid_audio_shape :
    ∀ (projectID instructions : String) (data : List JSONValue) (v : JSONValue),
      projectID ≠ "" → instructions ≠ "" →
      data.get? 2 = some v →
      (∀ l, v = JSONValue.arr l → l.length < 4) →
      CreateAudioOverview projectID instructions (Except.ok (JSONValue.arr data)) =
        (Except.ok (initialAudioResult projectID), true) ∧
      GetAudioOverview projectID (Except.ok (JSONValue.arr data)) =
        Except.error (GoError.goError "invalid audio data format") := by
  intro pid ins data v hp hi h2 hv
  have hlen : 2 < data.length := length_of_get?_eq_some h2
  cases v
  case arr l =>
    have hl : l.length < 4 := hv l rfl
    constructor
    · simp only [CreateAudioOverview, if_neg hp, if_neg hi, unmarshalTopArray, h2]
      rw [if_neg (show ¬data.length = 0 by omega), if_pos hlen, if_pos hl]
    · simp only [GetAudioOverview, unmarshalTopArray, h2]
      rw [if_neg (show ¬data.length = 0 by omega), if_pos hlen, if_pos hl]
  all_goals
    constructor
    · simp only [CreateAudioOverview, if_neg hp, if_neg hi, unmarshalTopArray, h2]
      rw [if_neg (show ¬data.length = 0 by omega), if_pos hlen]
    · simp only [GetAudioOverview, unmarshalTopArray, h2]
      rw [if_neg (show ¬data.length = 0 by omega), if_pos hlen]

/-- Witness for C8 at a concrete payload whose index-2 element is a
string. -/
theorem create_vs_get_invalid_audio_shape_witness :
    CreateAudioOverview "p" "i" (Except.ok (JSONValue.arr
        [JSONValue.null, JSONValue.null, JSONValue.str "oops"])) =
      (Except.ok (initialAudioResult "p"), true) ∧
    GetAudioOverview "p" (Except.ok (JSONValue.arr
        [JSONValue.null, JSONValue.null, JSONValue.str "oops"])) =
      Except.error (GoError.goError "invalid audio data format") :=
  create_vs_get_invalid_audio_shape "p" "i" _ _ (by decide) (by decide) rfl
    (fun l hl => JSONValue.noConfusion hl)

/-- Counterexample to claim C9: the empty byte sequence base64-encodes to
the empty string, on which `GetAudioBytes` fails with "no audio data
available" instead of yielding the empty sequence with nil error, so the
round trip does not hold for every byte sequence. -/
theorem base64_empty_roundtrip_cex :
    base64Encode [] = "" ∧
    GetAudioBytes
        { ProjectID := "p", AudioID := "", Title := "",
          AudioData := base64Encode [], IsReady := false } =
      Except.error (GoError.goError "no audio data available") :=
  ⟨rfl, rfl⟩

/-- Claim C9 as amended: for every nonempty byte sequence b, a result whose
`AudioData` is the standard base64 encoding of b yields exactly b with nil
error from `GetAudioBytes`; and `GetAudioBytes` fails exactly when
`AudioData` is the empty string or does not decode as standard base64. -/
theorem audio_base64_roundtrip :
    (∀ (bytes : List Nat) (r : AudioOverviewResult),
      bytes ≠ [] → (∀ b ∈ bytes, b < 256) →
      r.AudioData = base64Encode bytes →
      GetAudioBytes r = Except.ok bytes) ∧
    (∀ r : AudioOverviewResult,
      (∃ e, GetAudioBytes r = Except.error e) ↔
        r.AudioData = "" ∨ base64Decode r.AudioData = none) := by
  constructor
  · intro bytes r hne hb hr
    have hd : base64Decode (base64Encode bytes) = some bytes := by
      have hunfold : base64Decode (base64Encode bytes) =
          base64DecodeCore ((base64EncodeCore bytes).filter
            (fun c => !(c == '\r' || c == '\n'))) := rfl
      rw [hunfold, base64EncodeCore_filter_crlf bytes hb]
      exact base64DecodeCore_encodeCore bytes hb
    rw [GetAudioBytes, if_neg (by rw [hr]; exact base64Encode_ne_empty bytes hne), hr, hd]
  · intro r
    by_cases he : r.AudioData = ""
    · constructor
      · intro _
        exact Or.inl he
      · intro _
        exact ⟨GoError.goError "no audio data available", by rw [GetAudioBytes, if_pos he]⟩
    · cases hd : base64Decode r.AudioData with
      | some bs =>
        constructor
        · rintro ⟨e, hee⟩
          rw [GetAudioBytes, if_neg he, hd] at hee
          exact Except.noConfusion hee
        · rintro (h | h)
          · exact absurd h he
          · exact Option.noConfusion h
      | none =>
        constructor
        · intro _
          exact Or.inr rfl
        · intro _
          exact ⟨GoError.goError "illegal base64 data", by rw [GetAudioBytes, if_neg he, hd]⟩

/-- Witness for the amended C9: round trip of the bytes of "Man" and the
failure characterization at a non-base64 `AudioData`. -/
theorem audio_base64_roundtrip_witness :
    GetAudioBytes
        { ProjectID := "p", AudioID := "", Title := "",
          AudioData := base64Encode [77, 97, 110], IsReady := false } =
      Except.ok [77, 97, 110] ∧
    ((∃ e, GetAudioBytes
        { ProjectID := "p", AudioID := "", Title := "",
          AudioData := "*", IsReady := false } = Except.error e) ↔
      ("*" : String) = "" ∨ base64Decode "*" = none) :=
  ⟨audio_base64_roundtrip.1 [77, 97, 110] _ (by decide) (by decide) rfl,
   audio_base64_roundtrip.2
     { ProjectID := "p", AudioID := "", Title := "",
       AudioData := "*", IsReady := false }⟩

/-- Claim C10: `CreateAudioOverview` validates its arguments locally — an
empty project ID or empty instructions produce a non-nil error, and the
RPC-issued flag is false, i.e. no network call is made. -/
theorem create_audio_local_validation :
    ∀ (projectID instructions : String) (rpcResp : Except GoError JSONValue),
      projectID = "" ∨ instructions = "" →
      (∃ e, (CreateAudioOverview projectID instructions rpcResp).1 = Except.error e) ∧
      (CreateAudioOverview projectID instructions rpcResp).2 = false := by
  intro pid ins rpcResp h
  by_cases hp : pid = ""
  · refine ⟨⟨GoError.goError "project ID required", ?_⟩, ?_⟩ <;>
      simp [CreateAudioOverview, hp]
  · have hi : ins = "" := h.resolve_left hp
    refine ⟨⟨GoError.goError "instructions required", ?_⟩, ?_⟩ <;>
      simp [CreateAudioOverview, hp, hi]

/-- Witness for C10 at an empty project ID, with an RPC oracle that would
have succeeded. -/
theorem create_audio_local_validation_witness :
    (∃ e, (CreateAudioOverview "" "make it short" (Except.ok (JSONValue.arr []))).1 =
      Except.error e) ∧
    (CreateAudioOverview "" "make it short" (Except.ok (JSONValue.arr []))).2 = false :=
  create_audio_local_validation "" "make it short" (Except.ok (JSONValue.arr []))
    (Or.inl rfl)
